import Mathlib

/-!
Verification of the usbmuxd-client tunneling agent.

This development shallowly embeds the Go sources of the repository:

* `socket/client.go` — the proxy engine: `isConnectionOpen`, `startProxy`,
  `connectToServer`, `handleUnixSocket`, `handleTCPListener`, `runTunnel`;
* the `crypt` package — `EncryptHandshake`: AES-256-GCM encryption of the
  handshake token, nonce prepended, base64-encoded.

Machine integers are `Nat` with explicit reductions mod `2 ^ w` where the
word size matters; Go byte slices are `List Nat`; connections are explicit
records.  The concurrent splice session of `startProxy` is embedded as a
small-step transition relation quantified over all interleavings of the two
copy goroutines and of peer-side events.
-/

/-! ## Connections and the splice engine (`startProxy`) -/

/-- State of one end of a duplex stream connection (a Go `net.Conn`).
`closed` records that `Close` has been called locally, releasing the file
descriptor; `peerReset` records that the peer has reset or torn down its end
of the stream, which makes local writes fail even though the local descriptor
is still open and still has to be released with `Close`. -/
structure Conn where
  closed : Bool
  peerReset : Bool
deriving DecidableEq, Repr

/-- Embedding of `isConnectionOpen` from `socket/client.go`.  A `nil`
connection yields `(false, error)`.  Otherwise the function attempts a
zero-length write, `conn.Write(nil)`, which fails exactly when the connection
was closed locally ("use of closed network connection") or reset by the peer
("connection reset by peer"); on a healthy connection it returns `(true, nil)`. -/
def isConnectionOpen : Option Conn → Bool × Option String
  | none => (false, some ("соединение равно nil"))
  | some c =>
    if c.closed then (false, some ("use of closed network connection"))
    else if c.peerReset then (false, some ("connection reset by peer"))
    else (true, none)

/-- Program counter of one copy goroutine spawned by `startProxy`:
probe the source connection, run `io.Copy`, call the shared `closeOnce`,
return (`wg.Done`). -/
inductive GoPC where
  | atProbe
  | atCopy
  | atClose
  | finished
deriving DecidableEq, Repr

/-- Global state of one splice session: the two connections, the program
counters of the two copy goroutines (`A` copies a→b, `B` copies b→a), and
bookkeeping flags: `skippedX` — goroutine X returned straight after a failed
liveness probe; `firedX` — goroutine X executed the body of `closeOnce`. -/
structure SpliceState where
  a : Conn
  b : Conn
  pcA : GoPC
  pcB : GoPC
  skippedA : Bool
  skippedB : Bool
  firedA : Bool
  firedB : Bool
deriving DecidableEq, Repr

/-- Initial state of `startProxy(a0, b0)` after both goroutines are spawned:
both sit before their liveness probe. -/
def spliceInit (a0 b0 : Conn) : SpliceState :=
  { a := a0, b := b0, pcA := GoPC.atProbe, pcB := GoPC.atProbe,
    skippedA := false, skippedB := false, firedA := false, firedB := false }

/-- Effect of the body of `closeOnce`: `a.Close(); b.Close()`. -/
def closeBoth (s : SpliceState) : SpliceState :=
  { s with a := { s.a with closed := true }, b := { s.b with closed := true } }

/-- Small-step semantics of a splice session, one constructor per atomic
action of the source.  Goroutine A: its probe `isConnectionOpen(a)` either
fails (the goroutine logs and returns, never calling `closeOnce`) or
succeeds; `io.Copy(b, a)` eventually returns (end-of-stream or error) — it is
not forced to, an idle session simply has no terminating trace; then the
goroutine runs `closeOnce`, closing both connections (the `sync.OnceFunc`
gate makes a second execution a no-op, which coincides with closing an
already-closed connection in this model).  Goroutine B is symmetric.
`resetA`/`resetB` let the remote peer reset its end at any moment. -/
inductive SpliceStep : SpliceState → SpliceState → Prop where
  | probeSkipA (s : SpliceState) (hpc : s.pcA = GoPC.atProbe)
      (hfail : (isConnectionOpen (some s.a)).1 = false) :
      SpliceStep s { s with pcA := GoPC.finished, skippedA := true }
  | probeOkA (s : SpliceState) (hpc : s.pcA = GoPC.atProbe)
      (hok : (isConnectionOpen (some s.a)).1 = true) :
      SpliceStep s { s with pcA := GoPC.atCopy }
  | copyStopA (s : SpliceState) (hpc : s.pcA = GoPC.atCopy) :
      SpliceStep s { s with pcA := GoPC.atClose }
  | closeA (s : SpliceState) (hpc : s.pcA = GoPC.atClose) :
      SpliceStep s { closeBoth s with pcA := GoPC.finished, firedA := true }
  | probeSkipB (s : SpliceState) (hpc : s.pcB = GoPC.atProbe)
      (hfail : (isConnectionOpen (some s.b)).1 = false) :
      SpliceStep s { s with pcB := GoPC.finished, skippedB := true }
  | probeOkB (s : SpliceState) (hpc : s.pcB = GoPC.atProbe)
      (hok : (isConnectionOpen (some s.b)).1 = true) :
      SpliceStep s { s with pcB := GoPC.atCopy }
  | copyStopB (s : SpliceState) (hpc : s.pcB = GoPC.atCopy) :
      SpliceStep s { s with pcB := GoPC.atClose }
  | closeB (s : SpliceState) (hpc : s.pcB = GoPC.atClose) :
      SpliceStep s { closeBoth s with pcB := GoPC.finished, firedB := true }
  | resetA (s : SpliceState) :
      SpliceStep s { s with a := { s.a with peerReset := true } }
  | resetB (s : SpliceState) :
      SpliceStep s { s with b := { s.b with peerReset := true } }

/-- Reachability of one splice-session state from another under any
interleaving. -/
def SpliceReaches (s t : SpliceState) : Prop := Relation.ReflTransGen SpliceStep s t

/-- Embedding of the entry of `startProxy`: before anything else the function
logs a session-start line built from `a.RemoteAddr()` and `b.RemoteAddr()`.
Calling a method on a `nil` Go interface value panics, so an absent
connection crashes the session before any check runs; this is modelled by
`none`.  With both connections present the session starts in `spliceInit`. -/
def startProxyEntry : Option Conn → Option Conn → Option SpliceState
  | some a, some b => some (spliceInit a b)
  | _, _ => none

/-- Inductive invariant of a splice session started on `(a0, b0)`:
each connection's closed flag is exactly its initial flag or-ed with "some
goroutine ran `closeOnce`", and each goroutine's flags are consistent with
its program counter. -/
def SpliceInv (a0 b0 : Conn) (s : SpliceState) : Prop :=
  s.a.closed = (a0.closed || s.firedA || s.firedB) ∧
  s.b.closed = (b0.closed || s.firedA || s.firedB) ∧
  (s.skippedA = true → s.pcA = GoPC.finished) ∧
  (s.firedA = true → s.pcA = GoPC.finished) ∧
  (s.pcA = GoPC.finished → s.skippedA = true ∨ s.firedA = true) ∧
  ¬(s.skippedA = true ∧ s.firedA = true) ∧
  (s.skippedB = true → s.pcB = GoPC.finished) ∧
  (s.firedB = true → s.pcB = GoPC.finished) ∧
  (s.pcB = GoPC.finished → s.skippedB = true ∨ s.firedB = true) ∧
  ¬(s.skippedB = true ∧ s.firedB = true)

theorem spliceInv_init (a0 b0 : Conn) : SpliceInv a0 b0 (spliceInit a0 b0) := by
  simp [SpliceInv, spliceInit]

theorem spliceInv_step (a0 b0 : Conn) (s t : SpliceState)
    (hinv : SpliceInv a0 b0 s) (hstep : SpliceStep s t) : SpliceInv a0 b0 t := by
  obtain ⟨h1, h2, h3, h4, h5, h6, h7, h8, h9, h10⟩ := hinv
  cases hstep <;> simp_all [SpliceInv, closeBoth]

theorem spliceInv_reach (a0 b0 : Conn) (s : SpliceState)
    (h : SpliceReaches (spliceInit a0 b0) s) : SpliceInv a0 b0 s := by
  induction h with
  | refl => exact spliceInv_init a0 b0
  | tail _ hstep ih => exact spliceInv_step a0 b0 _ _ ih hstep

/-! ## Relay connector (`connectToServer`) -/

/-- Transcript of a relay connection: `writes` records the payload handed to
every `Write` call, in order, from the moment the dial created the
connection; `closed` records that `Close` was called. -/
structure RelayConn where
  writes : List String
  closed : Bool
deriving DecidableEq, Repr

/-- Record one `Write` call on a relay connection. -/
def relayWrite (c : RelayConn) (payload : String) : RelayConn :=
  { c with writes := c.writes ++ [payload] }

/-- Record `Close` on a relay connection. -/
def relayClose (c : RelayConn) : RelayConn := { c with closed := true }

/-- Embedding of `connectToServer` from `socket/client.go`.  The environment
outcomes are explicit: `dialErr` is the result of
`net.DialTimeout("tcp", addr, 10s)` and `writeErr` the result of the
handshake write.  A failed dial returns the error with no connection.  On a
successful dial the function writes `handshake + "\n"` on the fresh
connection; if that write fails the connection is closed and the error
returned.  The second component exposes the final state of the dialed
connection (when a dial happened) for the statements below. -/
def connectToServer (handshake : String) (dialErr writeErr : Option String) :
    Except String RelayConn × Option RelayConn :=
  match dialErr with
  | some e => (Except.error e, none)
  | none =>
    let conn : RelayConn := { writes := [], closed := false }
    let conn2 := relayWrite conn (handshake ++ "\n")
    match writeErr with
    | some e => (Except.error e, some (relayClose conn2))
    | none => (Except.ok conn2, some conn2)

/-! ## Tunnel dispatch (`runTunnel`) -/

/-- Tunnel descriptor from `socket/client.go`; the local address is kept as a
character list, matching Go's byte-string operations. -/
structure Tunnel where
  localAddr : List Char
  handshake : String
deriving DecidableEq, Repr

/-- Observable actions of `runTunnel` and its handlers. -/
inductive TunnelAction where
  | listenUnix (path : List Char)
  | listenTcp (addr : List Char)
  | relayConnect (handshake : String)
  | dialLocal (addr : List Char)
  | spliceSession
  | closeRemote
deriving DecidableEq, Repr

/-- Models `strings.HasPrefix(addr, "/")`. -/
def hasSlashStart : List Char → Bool
  | '/' :: _ => true
  | _ => false

/-- Models `strings.Contains(addr, ":")`. -/
def hasColon (addr : List Char) : Bool := addr.contains ':'

/-- Embedding of `runTunnel` from `socket/client.go`: an address with a
leading `/` is handed to `handleUnixSocket`, otherwise an address containing
`:` is handed to `handleTCPListener`, otherwise the direct branch runs one
`connectToServer`, one `net.Dial("tcp", localAddr)` (closing the relay
connection if the local dial fails) and one `startProxy`, then returns.  The
result is the trace of observable actions; the two listener branches hand
over to their accept loops, modelled separately by `runAcceptLoop`. -/
def runTunnel (t : Tunnel) (connectErr dialErr : Option String) : List TunnelAction :=
  if hasSlashStart t.localAddr then [TunnelAction.listenUnix t.localAddr]
  else if hasColon t.localAddr then [TunnelAction.listenTcp t.localAddr]
  else
    match connectErr with
    | some _ => [TunnelAction.relayConnect t.handshake]
    | none =>
      match dialErr with
      | some _ =>
          [TunnelAction.relayConnect t.handshake, TunnelAction.dialLocal t.localAddr,
            TunnelAction.closeRemote]
      | none =>
          [TunnelAction.relayConnect t.handshake, TunnelAction.dialLocal t.localAddr,
            TunnelAction.spliceSession]

/-! ## Filesystem and the domain-socket bind (`handleUnixSocket`) -/

/-- Minimal filesystem state: the set of existing files (socket files
included) and the set of existing directories, as lists of paths. -/
structure FS where
  files : List (List Char)
  dirs : List (List Char)
deriving DecidableEq, Repr

/-- Models `os.Remove(path)`: a file at `path`, if present, is deleted; the
source discards the returned error. -/
def osRemove (fs : FS) (p : List Char) : FS :=
  { fs with files := fs.files.filter (fun q => q ≠ p) }

/-- Models `os.MkdirAll(dir, 0755)`: afterwards the directory exists
(ancestors are not tracked individually by this model). -/
def osMkdirAll (fs : FS) (d : List Char) : FS :=
  { fs with dirs := d :: fs.dirs }

/-- Models `filepath.Dir` for the slash-separated paths the tunnel list uses:
everything before the last `/`, with `/` for paths directly under the root
and `.` for paths without a separator. -/
def dirname (p : List Char) : List Char :=
  if p.contains '/' then
    let keep := p.length - 1 - p.reverse.findIdx (fun c => c = '/')
    if keep = 0 then ['/'] else p.take keep
  else ['.']

/-- Models `net.Listen("unix", path)`: binding fails with "address already in
use" when a file already exists at `path`, fails when the parent directory is
missing, and otherwise creates the socket file and succeeds. -/
def netListenUnix (fs : FS) (p : List Char) : Except String FS :=
  if fs.files.contains p then Except.error ("bind: address already in use")
  else if fs.dirs.contains (dirname p) then Except.ok { fs with files := p :: fs.files }
  else Except.error ("bind: no such file or directory")

/-- Embedding of the pre-bind phase and the bind of `handleUnixSocket`:
`os.Remove(socketPath)`, then `os.MkdirAll(filepath.Dir(socketPath), 0755)`,
then `net.Listen("unix", socketPath)`. -/
def handleUnixSocketBind (fs : FS) (path : List Char) : Except String FS :=
  netListenUnix (osMkdirAll (osRemove fs path) (dirname path)) path

/-! ## Accept loops (`handleUnixSocket`, `handleTCPListener`) -/

/-- One event observed by an accept loop: either `Accept` itself failed, or a
local connection was accepted and the subsequent `connectToServer` call
either failed (`some err`) or succeeded (`none`). -/
inductive AcceptEvent where
  | acceptErr (e : String)
  | accepted (relayErr : Option String)
deriving DecidableEq, Repr

/-- Outcome of one iteration of an accept loop: whether the iteration
terminates the loop, whether the accepted local connection was closed, and
whether a `startProxy` session was spawned. -/
structure IterResult where
  loopEnds : Bool
  localClosed : Bool
  proxySpawned : Bool
deriving DecidableEq, Repr

/-- Embedding of one iteration of the `for` loop of `handleUnixSocket`:
an `Accept` error is logged and the loop continues; a failed
`connectToServer` closes the local connection and the loop continues; on
success `go startProxy(localConn, serverConn)` is spawned and the loop
continues. -/
def unixAcceptIter : AcceptEvent → IterResult
  | AcceptEvent.acceptErr _ => { loopEnds := false, localClosed := false, proxySpawned := false }
  | AcceptEvent.accepted (some _) => { loopEnds := false, localClosed := true, proxySpawned := false }
  | AcceptEvent.accepted none => { loopEnds := false, localClosed := false, proxySpawned := true }

/-- Embedding of one iteration of the `for` loop of `handleTCPListener`,
which is identical in structure to the Unix-socket loop. -/
def tcpAcceptIter : AcceptEvent → IterResult
  | AcceptEvent.acceptErr _ => { loopEnds := false, localClosed := false, proxySpawned := false }
  | AcceptEvent.accepted (some _) => { loopEnds := false, localClosed := true, proxySpawned := false }
  | AcceptEvent.accepted none => { loopEnds := false, localClosed := false, proxySpawned := true }

/-- Model of an accept loop run against a finite schedule of events: events
are consumed one iteration at a time until an iteration ends the loop (the
last, ending iteration is kept in the result). -/
def runAcceptLoop (iter : AcceptEvent → IterResult) : List AcceptEvent → List IterResult
  | [] => []
  | e :: rest =>
    let r := iter e
    if r.loopEnds then [r] else r :: runAcceptLoop iter rest

/-! ## Handshake crypto (`EncryptHandshake` from the `crypt` package)

The source builds its cipher with `aes.NewCipher(key)` (AES-256 for the
32-byte key) and `cipher.NewGCM(block)` (96-bit nonces, 128-bit tags, empty
additional data), so AES-256-GCM is embedded here in full.  Byte strings are
`List Nat`; 128-bit blocks are `Nat`. -/

/-- AES S-box, packed into one natural number: byte `i` of the number
(counting from the least significant byte) is `SBox(i)`. -/
def sboxC : Nat := 0x16bb54b00f2d99416842e6bf0d89a18cdf2855cee9871e9b948ed9691198f8e19e1dc186b95735610ef6034866b53e708a8bbd4b1f74dde8c6b4a61c2e2578ba08ae7a65eaf4566ca94ed58d6d37c8e779e4959162acd3c25c2406490a3a32e0db0b5ede14b8ee4688902a22dc4f816073195d643d7ea7c41744975fec130ccdd2f3ff1021dab6bcf5389d928f40a351a89f3c507f02f94585334d43fbaaefd0cf584c4a39becb6a5bb1fc20ed00d153842fe329b3d63b52a05a6e1b1a2c830975b227ebe28012079a059618c323c7041531d871f1e5a534ccf73f362693fdb7c072a49cafa2d4adf04759fa7dc982ca76abd7fe2b670130c56f6bf27b777c63

/-- AES S-box lookup. -/
def sbox (b : Nat) : Nat := (sboxC >>> (8 * b)) &&& 255

/-- Multiplication by `x` in GF(2^8) with the AES reduction polynomial. -/
def xtime (a : Nat) : Nat := if a < 128 then 2 * a else (2 * a) ^^^ 0x11b

/-- Big-endian byte string to number. -/
def bytesToNat (l : List Nat) : Nat := l.foldl (fun acc b => acc * 256 + b) 0

/-- Low 16 bytes of a number, big-endian. -/
def natToBytes16 (x : Nat) : List Nat :=
  (List.range 16).map (fun i => (x >>> (8 * (15 - i))) &&& 255)

/-- AES key schedule: S-box applied to each byte of a 32-bit word. -/
def subWord (w : Nat) : Nat :=
  sbox ((w >>> 24) &&& 255) * 2 ^ 24 + sbox ((w >>> 16) &&& 255) * 2 ^ 16 +
    sbox ((w >>> 8) &&& 255) * 2 ^ 8 + sbox (w &&& 255)

/-- AES key schedule: rotate a 32-bit word left by one byte. -/
def rotWord (w : Nat) : Nat := ((w <<< 8) % 2 ^ 32) + (w >>> 24)

/-- AES round constants (AES-256 uses indices 1–7). -/
def rcon (i : Nat) : Nat :=
  match i with
  | 1 => 0x01 | 2 => 0x02 | 3 => 0x04 | 4 => 0x08
  | 5 => 0x10 | 6 => 0x20 | 7 => 0x40 | _ => 0

/-- Word `i` of the AES-256 key schedule, given the previous words. -/
def nextWord (w : List Nat) (i : Nat) : Nat :=
  let t0 := w.getD (i - 1) 0
  let t :=
    if i % 8 = 0 then subWord (rotWord t0) ^^^ (rcon (i / 8) <<< 24)
    else if i % 8 = 4 then subWord t0
    else t0
  w.getD (i - 8) 0 ^^^ t

/-- Append `n` further schedule words. -/
def expandFrom (w : List Nat) : Nat → List Nat
  | 0 => w
  | n + 1 => expandFrom (w ++ [nextWord w w.length]) n

/-- The 60 32-bit words of the AES-256 key schedule of a 32-byte key. -/
def keyWords (key : List Nat) : List Nat :=
  expandFrom ((List.range 8).map (fun i => bytesToNat ((key.drop (4 * i)).take 4))) 52

/-- Big-endian bytes of a 32-bit word. -/
def wordBytes (w : Nat) : List Nat :=
  [(w >>> 24) &&& 255, (w >>> 16) &&& 255, (w >>> 8) &&& 255, w &&& 255]

/-- The 16 bytes of round key `r`. -/
def roundKey (ws : List Nat) (r : Nat) : List Nat :=
  (((ws.drop (4 * r)).take 4).map wordBytes).flatten

/-- AES ShiftRows on the flat 16-byte state (byte `r + 4c` holds row `r`,
column `c`). -/
def shiftRowsOp (s : List Nat) : List Nat :=
  [s.getD 0 0, s.getD 5 0, s.getD 10 0, s.getD 15 0,
   s.getD 4 0, s.getD 9 0, s.getD 14 0, s.getD 3 0,
   s.getD 8 0, s.getD 13 0, s.getD 2 0, s.getD 7 0,
   s.getD 12 0, s.getD 1 0, s.getD 6 0, s.getD 11 0]

/-- AES MixColumns on one column. -/
def mixCol (a0 a1 a2 a3 : Nat) : List Nat :=
  [xtime a0 ^^^ (xtime a1 ^^^ a1) ^^^ a2 ^^^ a3,
   a0 ^^^ xtime a1 ^^^ (xtime a2 ^^^ a2) ^^^ a3,
   a0 ^^^ a1 ^^^ xtime a2 ^^^ (xtime a3 ^^^ a3),
   (xtime a0 ^^^ a0) ^^^ a1 ^^^ a2 ^^^ xtime a3]

/-- AES MixColumns on the flat 16-byte state. -/
def mixColumnsOp (s : List Nat) : List Nat :=
  mixCol (s.getD 0 0) (s.getD 1 0) (s.getD 2 0) (s.getD 3 0) ++
  mixCol (s.getD 4 0) (s.getD 5 0) (s.getD 6 0) (s.getD 7 0) ++
  mixCol (s.getD 8 0) (s.getD 9 0) (s.getD 10 0) (s.getD 11 0) ++
  mixCol (s.getD 12 0) (s.getD 13 0) (s.getD 14 0) (s.getD 15 0)

/-- One middle AES round. -/
def aesRound (rk st : List Nat) : List Nat :=
  List.zipWith Nat.xor (mixColumnsOp (shiftRowsOp (st.map sbox))) rk

/-- The final AES round (no MixColumns). -/
def aesFinalRound (rk st : List Nat) : List Nat :=
  List.zipWith Nat.xor (shiftRowsOp (st.map sbox)) rk

/-- AES-256 encryption of one 16-byte block. -/
def aes256EncryptBytes (key inp : List Nat) : List Nat :=
  let ws := keyWords key
  let st0 := List.zipWith Nat.xor inp (roundKey ws 0)
  let stMid := (List.range 13).foldl (fun st r => aesRound (roundKey ws (r + 1)) st) st0
  aesFinalRound (roundKey ws 14) stMid

/-- AES-256 encryption of one 128-bit block given as a number. -/
def aesBlock (key : List Nat) (x : Nat) : Nat :=
  bytesToNat (aes256EncryptBytes key (natToBytes16 x))

/-- One step of the GF(2^128) multiplication of GHASH (NIST SP 800-38D):
accumulate `v` into `z` when the current bit of the left factor is set, then
shift `v` right, reducing with `R = 0xe1 <<< 120` when a bit falls off. -/
def gfMulStep (v z : Nat) (bit : Bool) : Nat × Nat :=
  let z2 := if bit then z ^^^ v else z
  let v2 := if v % 2 = 1 then (v >>> 1) ^^^ (0xe1 <<< 120) else v >>> 1
  (v2, z2)

/-- GF(2^128) multiplication used by GHASH; bits of `x` are consumed most
significant first. -/
def gfMul (x y : Nat) : Nat :=
  ((List.range 128).foldl (fun vz i => gfMulStep vz.1 vz.2 (x.testBit (127 - i))) (y, 0)).2

/-- GHASH compression over a list of 128-bit blocks. -/
def ghashBlocks (h : Nat) (blocks : List Nat) : Nat :=
  blocks.foldl (fun y b => gfMul (y ^^^ b) h) 0

/-- Split a byte string into 128-bit blocks, zero-padding the final partial
block, each block read big-endian. -/
def padBlocks : List Nat → List Nat
  | [] => []
  | l@(_ :: rest) =>
    bytesToNat (l.take 16 ++ List.replicate (16 - (l.take 16).length) 0) :: padBlocks (rest.drop 15)
termination_by l => l.length
decreasing_by simp [List.length_drop]; omega

/-- Counter-mode keystream blocks of AES-GCM: the 96-bit nonce in the high
bits, the 32-bit counter in the low bits. -/
def ksBlocks (key : List Nat) (nonceN ctr : Nat) : Nat → List Nat
  | 0 => []
  | k + 1 =>
    natToBytes16 (aesBlock key (nonceN * 2 ^ 32 + ctr % 2 ^ 32)) ++
      ksBlocks key nonceN (ctr + 1) k

/-- The first `n` payload-keystream bytes of AES-GCM (the payload counter
starts at 2; counter value 1 is reserved for the tag mask). -/
def gcmKeystream (key : List Nat) (nonceN n : Nat) : List Nat :=
  (ksBlocks key nonceN 2 ((n + 15) / 16)).take n

/-- AES-GCM authentication tag over empty additional data:
`GHASH_H(pad(C) || len64(A)=0 || len64(C))` masked with `E_K(J0)`, where
`H = E_K(0)` and `J0 = nonce || 1`. -/
def gcmTag (key : List Nat) (nonceN : Nat) (ct : List Nat) : List Nat :=
  let h := aesBlock key 0
  let s := ghashBlocks h (padBlocks ct ++ [(ct.length * 8) % 2 ^ 64])
  natToBytes16 (s ^^^ aesBlock key (nonceN * 2 ^ 32 + 1))

/-- AES-GCM `Seal` with empty additional data, as produced by
`cipher.NewGCM(aes.NewCipher(key)).Seal(dst, nonce, plaintext, nil)` minus
the `dst` prefix: the plaintext xored with the counter-mode keystream,
followed by the 16-byte tag. -/
def gcmSeal (key : List Nat) (nonceN : Nat) (pt : List Nat) : List Nat :=
  let ct := List.zipWith Nat.xor pt (gcmKeystream key nonceN pt.length)
  ct ++ gcmTag key nonceN ct

/-- AES-GCM `Open` with empty additional data (the inverse operation offered
by the same `cipher.AEAD`): reject blobs shorter than the tag, recompute and
check the tag, and recover the plaintext by xoring the keystream again. -/
def gcmOpen (key : List Nat) (nonceN : Nat) (blob : List Nat) : Option (List Nat) :=
  if blob.length < 16 then none
  else
    let ct := blob.take (blob.length - 16)
    let tag := blob.drop (blob.length - 16)
    if tag = gcmTag key nonceN ct then
      some (List.zipWith Nat.xor ct (gcmKeystream key nonceN ct.length))
    else none

/-- Character of one 6-bit digit in the standard base64 alphabet. -/
def b64Char (d : Nat) : Char :=
  if d < 26 then Char.ofNat (65 + d)
  else if d < 52 then Char.ofNat (97 + (d - 26))
  else if d < 62 then Char.ofNat (48 + (d - 52))
  else if d = 62 then '+' else '/'

/-- Digit of one base64 character, `none` outside the alphabet. -/
def b64Digit (c : Char) : Option Nat :=
  if 65 ≤ c.toNat ∧ c.toNat ≤ 90 then some (c.toNat - 65)
  else if 97 ≤ c.toNat ∧ c.toNat ≤ 122 then some (c.toNat - 97 + 26)
  else if 48 ≤ c.toNat ∧ c.toNat ≤ 57 then some (c.toNat - 48 + 52)
  else if c = '+' then some 62
  else if c = '/' then some 63
  else none

/-- Standard base64 encoding of a byte string with `=` padding
(Go `base64.StdEncoding.EncodeToString`). -/
def b64EncodeBytes : List Nat → List Char
  | [] => []
  | [a] =>
    let n := a * 2 ^ 16
    [b64Char (n / 2 ^ 18), b64Char (n / 2 ^ 12 % 64), '=', '=']
  | [a, b] =>
    let n := a * 2 ^ 16 + b * 2 ^ 8
    [b64Char (n / 2 ^ 18), b64Char (n / 2 ^ 12 % 64), b64Char (n / 2 ^ 6 % 64), '=']
  | a :: b :: c :: rest =>
    let n := a * 2 ^ 16 + b * 2 ^ 8 + c
    b64Char (n / 2 ^ 18) :: b64Char (n / 2 ^ 12 % 64) :: b64Char (n / 2 ^ 6 % 64) ::
      b64Char (n % 64) :: b64EncodeBytes rest

/-- Standard base64 decoding of a character string, `none` on malformed
input. -/
def b64DecodeChars : List Char → Option (List Nat)
  | [] => some []
  | c1 :: c2 :: c3 :: c4 :: rest =>
    match b64Digit c1, b64Digit c2 with
    | some d1, some d2 =>
      if c3 = '=' then
        if c4 = '=' then
          if rest = [] then some [(d1 * 64 + d2) / 16] else none
        else none
      else
        match b64Digit c3 with
        | some d3 =>
          if c4 = '=' then
            if rest = [] then
              some [(d1 * 2 ^ 12 + d2 * 2 ^ 6 + d3) / 2 ^ 10,
                (d1 * 2 ^ 12 + d2 * 2 ^ 6 + d3) / 2 ^ 2 % 256]
            else none
          else
            match b64Digit c4 with
            | some d4 =>
              match b64DecodeChars rest with
              | some bs =>
                let m := d1 * 2 ^ 18 + d2 * 2 ^ 12 + d3 * 2 ^ 6 + d4
                some (m / 2 ^ 16 :: m / 2 ^ 8 % 256 :: m % 256 :: bs)
              | none => none
            | none => none
        | none => none
    | _, _ => none
  | _ => none

/-- Base64 encoding as a Go string. -/
def base64Encode (l : List Nat) : String := String.mk (b64EncodeBytes l)

/-- Base64 decoding of a Go string. -/
def base64Decode (s : String) : Option (List Nat) := b64DecodeChars s.data

/-- Observable outcome of one `EncryptHandshake` call: the info-log lines
emitted (as the raw byte strings handed to the logger, in order), the
returned value, and the output of the AEAD seal (`none` when no encryption
was performed). -/
structure EncryptResult where
  logs : List (List Nat)
  result : Except String String
  sealedBlob : Option (List Nat)
deriving Repr

/-- Embedding of `EncryptHandshake` from the `crypt` package.  `secret` is
the raw byte string of the environment variable `HANDSHAKE_SECRET`, `nonce`
the 12 bytes supplied by the system CSPRNG (`crypto/rand`) for this call,
`plaintext` the byte string of the argument.  The source first executes
`log.Info(string(key))`, then rejects keys that are not exactly 32 bytes
long, and otherwise returns the base64 encoding of
`aesgcm.Seal(nonce, nonce, plaintext, nil)`, i.e. the nonce followed by the
AES-256-GCM ciphertext and tag. -/
def EncryptHandshake (secret nonce plaintext : List Nat) : EncryptResult :=
  let logLines := [secret]
  if secret.length ≠ 32 then
    { logs := logLines, result := Except.error ("ключ должен быть 32 байта"),
      sealedBlob := none }
  else
    let sealedPart := gcmSeal secret (bytesToNat nonce) plaintext
    { logs := logLines,
      result := Except.ok (base64Encode (nonce ++ sealedPart)),
      sealedBlob := some sealedPart }

/-! ## Supporting lemmas -/

theorem length_natToBytes16 (x : Nat) : (natToBytes16 x).length = 16 := by
  simp [natToBytes16]

theorem mem_natToBytes16_lt (x : Nat) : ∀ b ∈ natToBytes16 x, b < 256 := by
  intro b hb
  simp only [natToBytes16, List.mem_map, List.mem_range] at hb
  obtain ⟨i, _, rfl⟩ := hb
  have h := @Nat.and_le_right (x >>> (8 * (15 - i))) 255
  omega

theorem length_ksBlocks (key : List Nat) (nN c k : Nat) :
    (ksBlocks key nN c k).length = 16 * k := by
  induction k generalizing c with
  | zero => rfl
  | succ k ih =>
    simp only [ksBlocks, List.length_append, length_natToBytes16, ih]
    omega

theorem mem_ksBlocks_lt (key : List Nat) (nN c k : Nat) :
    ∀ b ∈ ksBlocks key nN c k, b < 256 := by
  induction k generalizing c with
  | zero => intro b hb; simp [ksBlocks] at hb
  | succ k ih =>
    intro b hb
    simp only [ksBlocks, List.mem_append] at hb
    rcases hb with h | h
    · exact mem_natToBytes16_lt _ b h
    · exact ih _ b h

theorem length_gcmKeystream (key : List Nat) (nN n : Nat) :
    (gcmKeystream key nN n).length = n := by
  have h := Nat.div_add_mod (n + 15) 16
  have h2 : (n + 15) % 16 < 16 := Nat.mod_lt _ (by omega)
  simp only [gcmKeystream, List.length_take, length_ksBlocks]
  omega

theorem mem_gcmKeystream_lt (key : List Nat) (nN n : Nat) :
    ∀ b ∈ gcmKeystream key nN n, b < 256 := by
  intro b hb
  exact mem_ksBlocks_lt key nN 2 ((n + 15) / 16) b (List.mem_of_mem_take hb)

theorem length_gcmTag (key : List Nat) (nN : Nat) (ct : List Nat) :
    (gcmTag key nN ct).length = 16 := by
  simp [gcmTag, length_natToBytes16]

theorem mem_gcmTag_lt (key : List Nat) (nN : Nat) (ct : List Nat) :
    ∀ b ∈ gcmTag key nN ct, b < 256 := by
  intro b hb
  simp only [gcmTag] at hb
  exact mem_natToBytes16_lt _ b hb

theorem xor_byte_lt (a b : Nat) (ha : a < 256) (hb : b < 256) : a ^^^ b < 256 := by
  have h : a ^^^ b < 2 ^ 8 := Nat.xor_lt_two_pow (by simpa using ha) (by simpa using hb)
  simpa using h

theorem mem_zipWith_xor_lt (p ks : List Nat) (hp : ∀ b ∈ p, b < 256)
    (hk : ∀ b ∈ ks, b < 256) : ∀ b ∈ List.zipWith Nat.xor p ks, b < 256 := by
  induction p generalizing ks with
  | nil => intro b hb; simp at hb
  | cons a p ih =>
    intro b hb
    cases ks with
    | nil => simp at hb
    | cons k ks =>
      simp only [List.zipWith, List.mem_cons] at hb
      rcases hb with rfl | hb
      · exact xor_byte_lt a k (hp a (by simp)) (hk k (by simp))
      · exact ih ks (fun x hx => hp x (by simp [hx])) (fun x hx => hk x (by simp [hx])) b hb

theorem zipWith_xor_cancel : ∀ p ks : List Nat, p.length ≤ ks.length →
    List.zipWith Nat.xor (List.zipWith Nat.xor p ks) ks = p := by
  intro p
  induction p with
  | nil => intro ks _; simp
  | cons a p ih =>
    intro ks h
    cases ks with
    | nil => simp at h
    | cons k ks =>
      simp only [List.zipWith, List.cons.injEq]
      exact ⟨Nat.xor_cancel_right k a, ih ks (by simpa using h)⟩

/-- Sealing then opening with the same key and nonce recovers the plaintext. -/
theorem gcm_roundtrip (key : List Nat) (nN : Nat) (pt : List Nat) :
    gcmOpen key nN (gcmSeal key nN pt) = some pt := by
  have hks : (gcmKeystream key nN pt.length).length = pt.length := length_gcmKeystream key nN _
  have hct : (List.zipWith Nat.xor pt (gcmKeystream key nN pt.length)).length = pt.length := by
    simp [List.length_zipWith, hks]
  simp only [gcmSeal, gcmOpen, List.length_append, length_gcmTag, hct]
  have hnot : ¬(pt.length + 16 < 16) := by omega
  rw [if_neg hnot]
  have hsub : pt.length + 16 - 16 = pt.length := by omega
  rw [hsub, List.take_left' hct, List.drop_left' hct, if_pos rfl, hct]
  exact congrArg some (zipWith_xor_cancel pt _ (by omega))

theorem b64Digit_b64Char : ∀ d : Nat, d < 64 → b64Digit (b64Char d) = some d := by
  decide

theorem b64Char_ne_pad : ∀ d : Nat, d < 64 → b64Char d ≠ '=' := by
  decide

theorem b64_roundtrip : ∀ l : List Nat, (∀ b ∈ l, b < 256) →
    b64DecodeChars (b64EncodeBytes l) = some l
  | [], _ => rfl
  | [a], h => by
    have ha : a < 256 := h a (by simp)
    have e1 := b64Digit_b64Char (a * 2 ^ 16 / 2 ^ 18) (by omega)
    have e2 := b64Digit_b64Char (a * 2 ^ 16 / 2 ^ 12 % 64) (by omega)
    simp only [b64EncodeBytes, b64DecodeChars, e1, e2, if_pos rfl, eq_self_iff_true,
      ite_true, Option.some.injEq, List.cons.injEq, and_true]
    omega
  | [a, b], h => by
    have ha : a < 256 := h a (by simp)
    have hb : b < 256 := h b (by simp)
    have e1 := b64Digit_b64Char ((a * 2 ^ 16 + b * 2 ^ 8) / 2 ^ 18) (by omega)
    have e2 := b64Digit_b64Char ((a * 2 ^ 16 + b * 2 ^ 8) / 2 ^ 12 % 64) (by omega)
    have e3 := b64Digit_b64Char ((a * 2 ^ 16 + b * 2 ^ 8) / 2 ^ 6 % 64) (by omega)
    have n3 := b64Char_ne_pad ((a * 2 ^ 16 + b * 2 ^ 8) / 2 ^ 6 % 64) (by omega)
    simp only [b64EncodeBytes, b64DecodeChars, e1, e2, e3, n3, if_pos rfl, if_neg n3,
      eq_self_iff_true, ite_true, ite_false, Option.some.injEq, List.cons.injEq, and_true]
    omega
  | a :: b :: c :: rest, h => by
    have ha : a < 256 := h a (by simp)
    have hb : b < 256 := h b (by simp)
    have hc : c < 256 := h c (by simp)
    have hrest := b64_roundtrip rest (fun x hx => h x (by simp [hx]))
    have e1 := b64Digit_b64Char ((a * 2 ^ 16 + b * 2 ^ 8 + c) / 2 ^ 18) (by omega)
    have e2 := b64Digit_b64Char ((a * 2 ^ 16 + b * 2 ^ 8 + c) / 2 ^ 12 % 64) (by omega)
    have e3 := b64Digit_b64Char ((a * 2 ^ 16 + b * 2 ^ 8 + c) / 2 ^ 6 % 64) (by omega)
    have e4 := b64Digit_b64Char ((a * 2 ^ 16 + b * 2 ^ 8 + c) % 64) (by omega)
    have n3 := b64Char_ne_pad ((a * 2 ^ 16 + b * 2 ^ 8 + c) / 2 ^ 6 % 64) (by omega)
    have n4 := b64Char_ne_pad ((a * 2 ^ 16 + b * 2 ^ 8 + c) % 64) (by omega)
    simp only [b64EncodeBytes, b64DecodeChars, e1, e2, e3, e4, if_neg n3, if_neg n4,
      hrest, Option.some.injEq, List.cons.injEq]
    refine ⟨by omega, by omega, by omega, trivial⟩

/-! ## Claim theorems -/

/-- Claim C1 (amended): when a splice session started on `(a0, b0)` terminates
(both copy goroutines have returned, under any interleaving), then: if at
least one direction's zero-length-write liveness probe succeeded, both
underlying connections have been closed; if both probes failed and both copy
tasks were skipped, the session terminates without closing either connection —
each end is closed at termination only if it was already closed. -/
theorem spliceSession_termination_close (a0 b0 : Conn) (s : SpliceState)
    (hr : SpliceReaches (spliceInit a0 b0) s)
    (hA : s.pcA = GoPC.finished) (hB : s.pcB = GoPC.finished) :
    (¬(s.skippedA = true ∧ s.skippedB = true) →
      s.a.closed = true ∧ s.b.closed = true) ∧
    ((s.skippedA = true ∧ s.skippedB = true) →
      s.a.closed = a0.closed ∧ s.b.closed = b0.closed) := by
  obtain ⟨h1, h2, h3, h4, h5, h6, h7, h8, h9, h10⟩ := spliceInv_reach a0 b0 s hr
  constructor
  · intro hns
    rcases h5 hA with hskA | hfA
    · rcases h9 hB with hskB | hfB
      · exact absurd ⟨hskA, hskB⟩ hns
      · constructor <;> simp [h1, h2, hfB]
    · constructor <;> simp [h1, h2, hfA]
  · rintro ⟨hskA, hskB⟩
    have hfA : s.firedA = false := by
      cases hf : s.firedA
      · rfl
      · exact absurd ⟨hskA, hf⟩ h6
    have hfB : s.firedB = false := by
      cases hf : s.firedB
      · rfl
      · exact absurd ⟨hskB, hf⟩ h10
    constructor <;> simp [h1, h2, hfA, hfB]

/-- Terminated session used to witness C1: both connections healthy at start,
direction A→B probes, copies and fires the shared close; direction B→A then
sees a closed connection and is skipped. -/
def spliceWitnessFinal : SpliceState :=
  ⟨⟨true, false⟩, ⟨true, false⟩, GoPC.finished, GoPC.finished, false, true, true, false⟩

theorem spliceWitnessReach :
    SpliceReaches (spliceInit ⟨false, false⟩ ⟨false, false⟩) spliceWitnessFinal := by
  have h1 : SpliceStep (spliceInit ⟨false, false⟩ ⟨false, false⟩)
      ⟨⟨false, false⟩, ⟨false, false⟩, GoPC.atCopy, GoPC.atProbe, false, false, false, false⟩ :=
    SpliceStep.probeOkA _ rfl rfl
  have h2 : SpliceStep
      ⟨⟨false, false⟩, ⟨false, false⟩, GoPC.atCopy, GoPC.atProbe, false, false, false, false⟩
      ⟨⟨false, false⟩, ⟨false, false⟩, GoPC.atClose, GoPC.atProbe, false, false, false, false⟩ :=
    SpliceStep.copyStopA _ rfl
  have h3 : SpliceStep
      ⟨⟨false, false⟩, ⟨false, false⟩, GoPC.atClose, GoPC.atProbe, false, false, false, false⟩
      ⟨⟨true, false⟩, ⟨true, false⟩, GoPC.finished, GoPC.atProbe, false, false, true, false⟩ :=
    SpliceStep.closeA _ rfl
  have h4 : SpliceStep
      ⟨⟨true, false⟩, ⟨true, false⟩, GoPC.finished, GoPC.atProbe, false, false, true, false⟩
      spliceWitnessFinal :=
    SpliceStep.probeSkipB _ rfl rfl
  exact Relation.ReflTransGen.head h1 (Relation.ReflTransGen.head h2
    (Relation.ReflTransGen.head h3 (Relation.ReflTransGen.single h4)))

/-- Witness for C1 at a concrete terminated session. -/
theorem spliceSession_termination_close_witness :
    (¬(spliceWitnessFinal.skippedA = true ∧ spliceWitnessFinal.skippedB = true) →
      spliceWitnessFinal.a.closed = true ∧ spliceWitnessFinal.b.closed = true) ∧
    ((spliceWitnessFinal.skippedA = true ∧ spliceWitnessFinal.skippedB = true) →
      spliceWitnessFinal.a.closed = (⟨false, false⟩ : Conn).closed ∧
      spliceWitnessFinal.b.closed = (⟨false, false⟩ : Conn).closed) :=
  spliceSession_termination_close ⟨false, false⟩ ⟨false, false⟩ spliceWitnessFinal
    spliceWitnessReach rfl rfl

/-- Terminated session refuting C1 as stated: the peer resets both
connections before the probes run. -/
def spliceCounterFinal : SpliceState :=
  ⟨⟨false, true⟩, ⟨false, true⟩, GoPC.finished, GoPC.finished, true, true, false, false⟩

/-- Counterexample to Claim C1 as stated: starting from two healthy
connections, the peer resets both ends, both zero-length-write probes fail,
both copy tasks are skipped, both goroutines return — the session terminates
(`startProxy` returns) with neither connection closed: `closeOnce` never ran
and both file descriptors are leaked. -/
theorem spliceSession_counterexample :
    SpliceReaches (spliceInit ⟨false, false⟩ ⟨false, false⟩) spliceCounterFinal ∧
    spliceCounterFinal.pcA = GoPC.finished ∧ spliceCounterFinal.pcB = GoPC.finished ∧
    spliceCounterFinal.a.closed = false ∧ spliceCounterFinal.b.closed = false := by
  refine ⟨?_, rfl, rfl, rfl, rfl⟩
  have h1 : SpliceStep (spliceInit ⟨false, false⟩ ⟨false, false⟩)
      ⟨⟨false, true⟩, ⟨false, false⟩, GoPC.atProbe, GoPC.atProbe, false, false, false, false⟩ :=
    SpliceStep.resetA _
  have h2 : SpliceStep
      ⟨⟨false, true⟩, ⟨false, false⟩, GoPC.atProbe, GoPC.atProbe, false, false, false, false⟩
      ⟨⟨false, true⟩, ⟨false, true⟩, GoPC.atProbe, GoPC.atProbe, false, false, false, false⟩ :=
    SpliceStep.resetB _
  have h3 : SpliceStep
      ⟨⟨false, true⟩, ⟨false, true⟩, GoPC.atProbe, GoPC.atProbe, false, false, false, false⟩
      ⟨⟨false, true⟩, ⟨false, true⟩, GoPC.finished, GoPC.atProbe, true, false, false, false⟩ :=
    SpliceStep.probeSkipA _ rfl rfl
  have h4 : SpliceStep
      ⟨⟨false, true⟩, ⟨false, true⟩, GoPC.finished, GoPC.atProbe, true, false, false, false⟩
      spliceCounterFinal :=
    SpliceStep.probeSkipB _ rfl rfl
  exact Relation.ReflTransGen.head h1 (Relation.ReflTransGen.head h2
    (Relation.ReflTransGen.head h3 (Relation.ReflTransGen.single h4)))

/-- Claim C2: on a successful dial, the transcript of the new relay
connection is exactly one write whose payload is the handshake token followed
by a single newline — nothing is written before it, whatever the write
outcome. -/
theorem connectToServer_first_write (handshake : String) (writeErr : Option String) :
    ∃ c : RelayConn, (connectToServer handshake none writeErr).2 = some c ∧
      c.writes = [handshake ++ "\n"] := by
  cases writeErr <;> exact ⟨_, rfl, rfl⟩

/-- Claim C3: if the handshake write fails on a successfully dialed relay
connection, `connectToServer` closes that connection and returns the error —
the caller never receives a partially-dialed connection. -/
theorem connectToServer_write_failure (handshake : String) (e : String) :
    (connectToServer handshake none (some e)).1 = Except.error e ∧
    ∃ c : RelayConn, (connectToServer handshake none (some e)).2 = some c ∧
      c.closed = true :=
  ⟨rfl, _, rfl, rfl⟩

/-- Claim C4: `EncryptHandshake` fails with the invalid-key-length error and
performs no AEAD seal exactly when the key is not 32 bytes long. -/
theorem encryptHandshake_key_length_check (secret nonce pt : List Nat) :
    ((EncryptHandshake secret nonce pt).result =
        Except.error ("ключ должен быть 32 байта") ∧
      (EncryptHandshake secret nonce pt).sealedBlob = none) ↔
    secret.length ≠ 32 := by
  by_cases h : secret.length = 32 <;> simp [EncryptHandshake, h]

/-- Witness for C4 at a concrete 1-byte key. -/
theorem encryptHandshake_key_length_check_witness :
    (EncryptHandshake [7] [] []).result = Except.error ("ключ должен быть 32 байта") ∧
    (EncryptHandshake [7] [] []).sealedBlob = none :=
  (encryptHandshake_key_length_check [7] [] []).mpr (by decide)

/-- Claim C5: for a 32-byte key, the returned blob base64-decodes to the
nonce prepended to the AEAD seal output, and AEAD decryption with that nonce
and the same key recovers the plaintext. -/
theorem encryptHandshake_roundtrip (secret nonce pt : List Nat)
    (hsec : secret.length = 32) (hsecB : ∀ b ∈ secret, b < 256)
    (hnonce : nonce.length = 12) (hnB : ∀ b ∈ nonce, b < 256)
    (hptB : ∀ b ∈ pt, b < 256) :
    ∃ blob : String,
      (EncryptHandshake secret nonce pt).result = Except.ok blob ∧
      base64Decode blob = some (nonce ++ gcmSeal secret (bytesToNat nonce) pt) ∧
      gcmOpen secret (bytesToNat nonce) (gcmSeal secret (bytesToNat nonce) pt) =
        some pt := by
  refine ⟨base64Encode (nonce ++ gcmSeal secret (bytesToNat nonce) pt), ?_, ?_, ?_⟩
  · simp [EncryptHandshake, hsec]
  · have hbound : ∀ b ∈ nonce ++ gcmSeal secret (bytesToNat nonce) pt, b < 256 := by
      intro b hb
      rcases List.mem_append.mp hb with h | h
      · exact hnB b h
      · rcases List.mem_append.mp (by simpa [gcmSeal] using h) with h2 | h2
        · exact mem_zipWith_xor_lt pt _ hptB (mem_gcmKeystream_lt _ _ _) b h2
        · exact mem_gcmTag_lt _ _ _ b h2
    exact b64_roundtrip _ hbound
  · exact gcm_roundtrip secret (bytesToNat nonce) pt

/-- Witness for C5 at a concrete key, nonce and plaintext. -/
theorem encryptHandshake_roundtrip_witness :
    ∃ blob : String,
      (EncryptHandshake (List.range 32) (List.range 12) [72, 105]).result =
        Except.ok blob ∧
      base64Decode blob =
        some (List.range 12 ++ gcmSeal (List.range 32) (bytesToNat (List.range 12)) [72, 105]) ∧
      gcmOpen (List.range 32) (bytesToNat (List.range 12))
          (gcmSeal (List.range 32) (bytesToNat (List.range 12)) [72, 105]) =
        some [72, 105] :=
  encryptHandshake_roundtrip (List.range 32) (List.range 12) [72, 105]
    (by decide) (by decide) (by decide) (by decide) (by decide)

/-- Claim C6: `runTunnel` selects the local-address variant by exactly this
rule — leading path separator: domain-socket listener; otherwise a port
delimiter: TCP listener; otherwise the direct variant performs one relay
connect, one outbound local dial and exactly one splice session, then
returns without looping. -/
theorem runTunnel_variant_dispatch (t : Tunnel) (cErr dErr : Option String) :
    (hasSlashStart t.localAddr = true →
      runTunnel t cErr dErr = [TunnelAction.listenUnix t.localAddr]) ∧
    (hasSlashStart t.localAddr = false → hasColon t.localAddr = true →
      runTunnel t cErr dErr = [TunnelAction.listenTcp t.localAddr]) ∧
    (hasSlashStart t.localAddr = false → hasColon t.localAddr = false →
      runTunnel t none none =
        [TunnelAction.relayConnect t.handshake, TunnelAction.dialLocal t.localAddr,
          TunnelAction.spliceSession]) := by
  refine ⟨fun h1 => ?_, fun h1 h2 => ?_, fun h1 h2 => ?_⟩
  · simp [runTunnel, h1]
  · simp [runTunnel, h1, h2]
  · simp [runTunnel, h1, h2]

/-- Witness for C6 at a bare-name local address (direct variant). -/
theorem runTunnel_variant_dispatch_witness :
    runTunnel ⟨['l', 'o', 'c'], "forward"⟩ none none =
      [TunnelAction.relayConnect "forward", TunnelAction.dialLocal ['l', 'o', 'c'],
        TunnelAction.spliceSession] :=
  (runTunnel_variant_dispatch ⟨['l', 'o', 'c'], "forward"⟩ none none).2.2
    (by decide) (by decide)

theorem contains_filter_ne (l : List (List Char)) (p : List Char) :
    (l.filter (fun q => q ≠ p)).contains p = false := by
  induction l with
  | nil => rfl
  | cons x xs ih =>
    by_cases hx : x = p
    · simp [List.filter, hx, ih]
    · simp [List.filter, hx, ih]
      exact fun hpx => hx hpx.symm

/-- Claim C7: `handleUnixSocket` removes a pre-existing socket file at the
path and ensures the parent directory exists before binding, so binding over
a stale socket file succeeds instead of failing with "address in use". -/
theorem handleUnixSocket_stale_socket (fs : FS) (path : List Char)
    (hstale : fs.files.contains path = true) :
    (osRemove fs path).files.contains path = false ∧
    ∃ fs2 : FS, handleUnixSocketBind fs path = Except.ok fs2 := by
  constructor
  · exact contains_filter_ne fs.files path
  · refine ⟨⟨path :: fs.files.filter (fun q => q ≠ path), dirname path :: fs.dirs⟩, ?_⟩
    simp [handleUnixSocketBind, netListenUnix, osMkdirAll, osRemove, contains_filter_ne]

/-- Witness for C7: a filesystem holding exactly one stale socket file. -/
theorem handleUnixSocket_stale_socket_witness :
    (osRemove ⟨[['/', 't']], []⟩ ['/', 't']).files.contains ['/', 't'] = false ∧
    ∃ fs2 : FS, handleUnixSocketBind ⟨[['/', 't']], []⟩ ['/', 't'] = Except.ok fs2 :=
  handleUnixSocket_stale_socket ⟨[['/', 't']], []⟩ ['/', 't'] (by decide)

/-- Claim C8: in both accept loops, an accept error and a relay-connect
failure each let the loop continue (the loop consumes every event of any
schedule — no per-connection error terminates it), and a relay-connect
failure closes the accepted local connection. -/
theorem acceptLoop_never_terminated (evs : List AcceptEvent) :
    runAcceptLoop unixAcceptIter evs = evs.map unixAcceptIter ∧
    runAcceptLoop tcpAcceptIter evs = evs.map tcpAcceptIter ∧
    (∀ ev : AcceptEvent,
      (unixAcceptIter ev).loopEnds = false ∧ (tcpAcceptIter ev).loopEnds = false) ∧
    (∀ e : String,
      (unixAcceptIter (AcceptEvent.accepted (some e))).localClosed = true ∧
      (tcpAcceptIter (AcceptEvent.accepted (some e))).localClosed = true) := by
  have hu : ∀ ev : AcceptEvent, (unixAcceptIter ev).loopEnds = false := by
    intro ev
    cases ev with
    | acceptErr e => rfl
    | accepted r => cases r <;> rfl
  have ht : ∀ ev : AcceptEvent, (tcpAcceptIter ev).loopEnds = false := by
    intro ev
    cases ev with
    | acceptErr e => rfl
    | accepted r => cases r <;> rfl
  refine ⟨?_, ?_, fun ev => ⟨hu ev, ht ev⟩, fun e => ⟨rfl, rfl⟩⟩
  · induction evs with
    | nil => rfl
    | cons e rest ih => simp [runAcceptLoop, hu e, ih]
  · induction evs with
    | nil => rfl
    | cons e rest ih => simp [runAcceptLoop, ht e, ih]

/-- Counterexample to Claim C9 as stated: a splice invocation with a `nil`
first connection panics (modelled by `none`) in the session-start logging,
before any check could report an `InvalidConnection`-style error. -/
theorem startProxy_nil_counterexample :
    startProxyEntry none (some ⟨false, false⟩) = none := rfl

/-- Claim C9 (amended): the probe helper `isConnectionOpen` does report an
error for a `nil` connection, but a splice invocation (`startProxy`) with a
`nil` connection on either side crashes before any check runs, because the
session-start logging dereferences both connections. -/
theorem startProxy_nil_behavior :
    isConnectionOpen none = (false, some ("соединение равно nil")) ∧
    (∀ oc : Option Conn, startProxyEntry none oc = none) ∧
    (∀ oc : Option Conn, startProxyEntry oc none = none) := by
  refine ⟨rfl, ?_, ?_⟩ <;> intro oc <;> cases oc <;> rfl

/-- Claim C10: on every call, valid key or not, the first info-log line
emitted by `EncryptHandshake` is the raw pre-shared key read from the
environment, verbatim, before the length check and before any encryption. -/
theorem encryptHandshake_logs_key (secret nonce pt : List Nat) :
    (EncryptHandshake secret nonce pt).logs.head? = some secret := by
  by_cases h : secret.length = 32 <;> simp [EncryptHandshake, h]
